import Mathlib

/-!
Verification of the multi-account polling scheduler of `go-tsk`
(`internal/scheduler`, `internal/config`, `internal/email`).

The Go source is shallowly embedded: timestamps are `Nat`, the external
mail-provider behaviour (connect/authenticate/fetch/apply-label outcomes,
and the wall clock read after a fetch) is an explicit `PollEnv` oracle,
the per-account stop channel is a `Bool` flag, and the three-way
`select` of the polling loop consumes an explicit list of `LoopEvent`s.
Each definition mirrors one Go function of the repository.
-/

namespace GoTsk

/-- Mirrors `config.Rule`: an email processing rule. -/
structure Rule where
  SubjectContains : String
  Action : String
  Label : String
deriving DecidableEq, Repr

/-- Mirrors `config.EmailAccount`: a single account configuration. -/
structure EmailAccount where
  ID : String
  Name : String
  Provider : String
  ClientID : String
  ClientSecret : String
  Token : String
  Enabled : Bool
deriving DecidableEq, Repr

/-- Mirrors `email.Email`: a fetched message (IMAP date as `Nat`). -/
structure Email where
  UID : Nat
  Subject : String
  From : String
  Date : Nat
  Flags : List String
deriving DecidableEq, Repr

/-- Mirrors `email.GmailClient` as held in `AccountState.client`: the
stored OAuth2 configuration and token identify the session handle. -/
structure GmailClient where
  clientID : String
  clientSecret : String
  token : String
deriving DecidableEq, Repr

/-- Mirrors `email.NewGmailClient`: builds the OAuth2 config and token
and returns the client.  The Go body never returns a non-nil error. -/
def NewGmailClient (clientID clientSecret token : String) :
    Except String GmailClient :=
  Except.ok { clientID := clientID, clientSecret := clientSecret, token := token }

/-- The client value `NewGmailClient` yields for an account's credentials. -/
def mkClient (a : EmailAccount) : GmailClient :=
  { clientID := a.ClientID, clientSecret := a.ClientSecret, token := a.Token }

/-- Mirrors `scheduler.AccountState`: per-account mutable record.  The
one-shot stop channel is modelled by `stopClosed` (`true` once closed). -/
structure AccountState where
  lastSync : Nat
  isActive : Bool
  stopClosed : Bool
  client : Option GmailClient
deriving DecidableEq, Repr

/-- Mirrors `strings.ToLower` as used by `containsIgnoreCase`: lowercase
every rune; a Go string is embedded as its rune sequence. -/
def ToLower (s : String) : List Char :=
  s.data.map Char.toLower

/-- Mirrors `scheduler.containsIgnoreCase`: lowercases both strings and
checks substring containment (`strings.Contains`: `substr` occurs as a
contiguous run inside `s`). -/
def containsIgnoreCase (s substr : String) : Bool :=
  decide (ToLower substr <:+: ToLower s)

/-- Oracle for one poll cycle's external interactions: outcomes of
`Connect`, `Authenticate`, `FetchNewEmails` (as a function of the
`lastSync` bound passed to it), `ApplyLabel` per (uid, label), and the
value `time.Now()` reads after the fetch completes. -/
structure PollEnv where
  connectOk : Bool
  authOk : Bool
  fetch : Nat → Except String (List Email)
  applyLabelOk : Nat → String → Bool
  now : Nat

/-- Result of one call to `EmailPoller.poll`: the updated account state,
the `ApplyLabel` requests issued in order (uid, label), how many times a
fresh provider session was constructed, and the returned error if any. -/
structure PollResult where
  state : AccountState
  actions : List (Nat × String)
  sessionsCreated : Nat
  err : Option String
deriving Repr

/-- Inner loop of `EmailPoller.poll` over the rules for one email
(config lines 231–239): for each rule in declaration order, if the
subject matches, one `ApplyLabel` request is issued; an apply failure is
logged and `continue`s, so it never stops the remaining rules. -/
def processRules (applyLabelOk : Nat → String → Bool) (e : Email) :
    List Rule → List (Nat × String)
  | [] => []
  | r :: rs =>
    if containsIgnoreCase e.Subject r.SubjectContains then
      (e.UID, r.Label) :: processRules applyLabelOk e rs
    else
      processRules applyLabelOk e rs

/-- Outer loop of `EmailPoller.poll` over the fetched emails
(config lines 230–240), in the order returned by the provider. -/
def processEmails (applyLabelOk : Nat → String → Bool) (rules : List Rule) :
    List Email → List (Nat × String)
  | [] => []
  | e :: es =>
      processRules applyLabelOk e rules ++ processEmails applyLabelOk rules es

/-- Fetch-and-act tail of `EmailPoller.poll` (lines 223–246): fetch since
the `lastSync` read at cycle start; on fetch error return with the state
unchanged from `st`; on success process all emails, then set
`state.lastSync` to `time.Now()` (read after the fetch). -/
def fetchAndProcess (env : PollEnv) (rules : List Rule) (st : AccountState)
    (lastSync : Nat) (created : Nat) : PollResult :=
  match env.fetch lastSync with
  | Except.error _ =>
      { state := st, actions := [], sessionsCreated := created,
        err := some "failed to fetch emails" }
  | Except.ok emails =>
      { state := { st with lastSync := env.now },
        actions := processEmails env.applyLabelOk rules emails,
        sessionsCreated := created,
        err := none }

/-- Mirrors `EmailPoller.poll` (lines 195–247) for one account: read
`lastSync`; if no client is stored, construct one (`NewGmailClient`,
`Connect`, `Authenticate`) — any failure aborts the cycle with the state
unchanged; once a client is stored, fetch and process. -/
def poll (env : PollEnv) (rules : List Rule) (account : EmailAccount)
    (st : AccountState) : PollResult :=
  let lastSync := st.lastSync
  match st.client with
  | none =>
    match NewGmailClient account.ClientID account.ClientSecret account.Token with
    | Except.error _ =>
        { state := st, actions := [], sessionsCreated := 1,
          err := some "failed to create Gmail client" }
    | Except.ok client =>
        if env.connectOk = false then
          { state := st, actions := [], sessionsCreated := 1,
            err := some "failed to connect to Gmail" }
        else if env.authOk = false then
          { state := st, actions := [], sessionsCreated := 1,
            err := some "failed to authenticate with Gmail" }
        else
          fetchAndProcess env rules { st with client := some client } lastSync 1
  | some _ => fetchAndProcess env rules st lastSync 0

/-- One arrival at the three-way `select` of `pollAccount` (lines
180–190): process-wide cancellation (`ctx.Done()`), the account's stop
channel, or a ticker tick carrying that cycle's external outcomes. -/
inductive LoopEvent where
  | cancel
  | stopSig
  | tick (env : PollEnv)

/-- How one call to `EmailPoller.pollAccount` returns: the
"polling already active" error (line 166), `ctx.Err()` on cancellation
(line 182, a non-nil error), `nil` on the stop channel (line 184), or —
since the Go loop is infinite — still running after the modelled trace
of events is exhausted. -/
inductive PollAccountOutcome where
  | alreadyActiveErr
  | ctxErr
  | nilErr
  | stillRunning
deriving DecidableEq, Repr

/-- The `for`/`select` loop of `pollAccount` (lines 179–191) over a
finite trace of events.  A tick's poll failure is logged and the loop
`continue`s, so ticks never terminate the loop.  Returns the outcome,
the final account state, and the total number of provider sessions
created during the trace. -/
def runLoop (rules : List Rule) (account : EmailAccount) :
    AccountState → List LoopEvent → PollAccountOutcome × AccountState × Nat
  | st, [] => (PollAccountOutcome.stillRunning, st, 0)
  | st, LoopEvent.cancel :: _ => (PollAccountOutcome.ctxErr, st, 0)
  | st, LoopEvent.stopSig :: _ => (PollAccountOutcome.nilErr, st, 0)
  | st, LoopEvent.tick env :: rest =>
      let r := poll env rules account st
      let k := runLoop rules account r.state rest
      (k.1, k.2.1, r.sessionsCreated + k.2.2)

/-- Mirrors `EmailPoller.pollAccount` (lines 160–192): under the mutex,
test-and-set `isActive` — if already active, fail immediately with no
side effects; otherwise mark active, perform the initial poll (its error
is only logged), then enter the event loop. -/
def pollAccount (rules : List Rule) (account : EmailAccount)
    (initEnv : PollEnv) (st : AccountState) (evs : List LoopEvent) :
    PollAccountOutcome × AccountState × Nat :=
  if st.isActive then (PollAccountOutcome.alreadyActiveErr, st, 0)
  else
    let st1 := { st with isActive := true }
    let r0 := poll initEnv rules account st1
    let k := runLoop rules account r0.state evs
    (k.1, k.2.1, r0.sessionsCreated + k.2.2)

/-- Whether a loop outcome makes `pollAccount` return a non-nil error,
which the goroutine in `Start` (lines 119–124) forwards to `errChan`. -/
def loopErrored : PollAccountOutcome → Bool
  | PollAccountOutcome.alreadyActiveErr => true
  | PollAccountOutcome.ctxErr => true
  | PollAccountOutcome.nilErr => false
  | PollAccountOutcome.stillRunning => false

/-- Mirrors the aggregation of `EmailPoller.Start` (lines 107–139):
one loop per `Enabled` account, each loop's non-nil error is sent to
`errChan`, and `Start` returns the first received error, else `nil`.
`runOf` gives each enabled account's loop outcome; the result is `true`
iff `Start` returns a non-nil error. -/
def Start (accounts : List EmailAccount)
    (runOf : EmailAccount → PollAccountOutcome) : Bool :=
  ((accounts.filter fun a => a.Enabled).map runOf).any loopErrored

/-- Body of the `Stop` loop (lines 146–156) for one account state: if
active, close the stored client if present, close the stop channel, and
clear `isActive`; otherwise do nothing.  The second component counts the
`Close` calls made on the provider session. -/
def stopOne (st : AccountState) : AccountState × Nat :=
  if st.isActive then
    ({ st with isActive := false, stopClosed := true },
     if st.client.isSome then 1 else 0)
  else (st, 0)

/-- Mirrors `EmailPoller.Stop` (lines 142–157) over the account-state
map (as an association list): applies `stopOne` to every entry; the
second component totals the session `Close` calls. -/
def Stop (m : List (String × AccountState)) :
    List (String × AccountState) × Nat :=
  (m.map fun p => (p.1, (stopOne p.2).1),
   (m.map fun p => (stopOne p.2).2).sum)

/-- Outcome of the event loop as determined by the event trace alone:
the first `cancel` or `stopSig` decides it; ticks are passed over. -/
def outcomeOf : List LoopEvent → PollAccountOutcome
  | [] => PollAccountOutcome.stillRunning
  | LoopEvent.cancel :: _ => PollAccountOutcome.ctxErr
  | LoopEvent.stopSig :: _ => PollAccountOutcome.nilErr
  | LoopEvent.tick _ :: rest => outcomeOf rest

/-! Concrete fixtures used to instantiate the theorems. -/

/-- A concrete account (the `DefaultConfig` primary account, enabled). -/
def exAcct : EmailAccount :=
  { ID := "primary", Name := "Primary Gmail", Provider := "gmail",
    ClientID := "", ClientSecret := "", Token := "", Enabled := true }

/-- A concrete fresh account state, as built by `NewEmailPoller`. -/
def exSt : AccountState :=
  { lastSync := 0, isActive := false, stopClosed := false, client := none }

/-- A concrete poll environment whose external calls all succeed and
whose clock reads 5 after the fetch. -/
def exEnv : PollEnv :=
  { connectOk := true, authOk := true,
    fetch := fun _ => Except.ok [], applyLabelOk := fun _ _ => true,
    now := 5 }

/-- A concrete poll environment whose fetch fails. -/
def exEnvBad : PollEnv :=
  { connectOk := true, authOk := true,
    fetch := fun _ => Except.error "network down",
    applyLabelOk := fun _ _ => true, now := 7 }

/-- The `DefaultConfig` rule. -/
def exRule : Rule :=
  { SubjectContains := "job opportunity", Action := "label", Label := "imp" }

/-- A rule whose subject fragment is empty. -/
def exEmptyRule : Rule :=
  { SubjectContains := "", Action := "label", Label := "all" }

/-- A concrete fetched message. -/
def exMail : Email :=
  { UID := 42, Subject := "Job Opportunity at Acme", From := "hr@acme.test",
    Date := 3, Flags := [] }

/-- A second concrete fetched message, not matching `exRule`. -/
def exMail2 : Email :=
  { UID := 43, Subject := "Lunch plans", From := "amy@acme.test",
    Date := 4, Flags := [] }

/-- A concrete poll environment whose connect fails. -/
def exEnvNoConn : PollEnv :=
  { connectOk := false, authOk := true,
    fetch := fun _ => Except.ok [], applyLabelOk := fun _ _ => true,
    now := 9 }

/-- The client `NewGmailClient` yields for `exAcct`. -/
def exClient : GmailClient := mkClient exAcct

/-- A concrete account state with an active polling loop. -/
def exStActive : AccountState :=
  { lastSync := 2, isActive := true, stopClosed := false, client := none }

/-- A concrete active account state holding a session. -/
def exStActiveClient : AccountState :=
  { lastSync := 2, isActive := true, stopClosed := false,
    client := some exClient }

/-- A concrete inactive account state holding a session. -/
def exStWithClient : AccountState :=
  { lastSync := 1, isActive := false, stopClosed := false,
    client := some exClient }

/-- A concrete account-state map with one active and one idle account. -/
def exMap : List (String × AccountState) :=
  [("a", exStActiveClient), ("b", exSt)]

/-! Helper lemmas about `poll`. -/

/-- The state returned by `fetchAndProcess` is the input state, with
`lastSync` set to `env.now` exactly when the fetch succeeded. -/
theorem fetchAndProcess_state (env : PollEnv) (rules : List Rule)
    (st : AccountState) (lastSync created : Nat) :
    ((fetchAndProcess env rules st lastSync created).err = none ∧
      (fetchAndProcess env rules st lastSync created).state =
        { st with lastSync := env.now }) ∨
    ((fetchAndProcess env rules st lastSync created).err ≠ none ∧
      (fetchAndProcess env rules st lastSync created).state = st) := by
  unfold fetchAndProcess
  cases hf : env.fetch lastSync <;> simp

/-- The function `poll` never changes `isActive` or `stopClosed`, and
only ever changes `lastSync` to `env.now` or `client` from `none` to
`some`. -/
theorem poll_state_shape (env : PollEnv) (rules : List Rule)
    (account : EmailAccount) (st : AccountState) :
    ((poll env rules account st).state.isActive = st.isActive) ∧
    ((poll env rules account st).state.stopClosed = st.stopClosed) ∧
    ((poll env rules account st).state.lastSync = st.lastSync ∨
      (poll env rules account st).state.lastSync = env.now) := by
  unfold poll NewGmailClient
  cases hc : st.client <;> simp only []
  · split
    · simp
    · split
      · simp
      · rcases fetchAndProcess_state env rules
          { st with client := some _ } st.lastSync 1 with ⟨_, h⟩ | ⟨_, h⟩ <;>
          rw [h] <;> simp
  · rcases fetchAndProcess_state env rules st st.lastSync 0 with ⟨_, h⟩ | ⟨_, h⟩ <;>
      rw [h] <;> simp

/-- On a successful cycle `lastSync` becomes `env.now` (the clock read
after the fetch); on a failed cycle `lastSync` is untouched. -/
theorem poll_lastSync_spec (env : PollEnv) (rules : List Rule)
    (account : EmailAccount) (st : AccountState) :
    ((poll env rules account st).err = none →
      (poll env rules account st).state.lastSync = env.now) ∧
    ((poll env rules account st).err ≠ none →
      (poll env rules account st).state.lastSync = st.lastSync) := by
  unfold poll NewGmailClient
  cases hc : st.client <;> simp only []
  · split
    · simp
    · split
      · simp
      · rcases fetchAndProcess_state env rules
          { st with client := some ⟨account.ClientID, account.ClientSecret, account.Token⟩ }
          st.lastSync 1
          with ⟨he, hs⟩ | ⟨he, hs⟩ <;> rw [hs] <;> simp [he]
  · rcases fetchAndProcess_state env rules st st.lastSync 0
      with ⟨he, hs⟩ | ⟨he, hs⟩ <;> rw [hs] <;> simp [he]

/-- `poll` constructs a session exactly when none is stored. -/
theorem poll_sessionsCreated (env : PollEnv) (rules : List Rule)
    (account : EmailAccount) (st : AccountState) :
    (poll env rules account st).sessionsCreated =
      if st.client.isSome then 0 else 1 := by
  unfold poll NewGmailClient fetchAndProcess
  cases hc : st.client <;> simp only [hc, Option.isSome] <;> simp
  · split
    · rfl
    · split
      · rfl
      · cases hf : env.fetch st.lastSync <;> simp
  · cases hf : env.fetch st.lastSync <;> simp

/-- A stored session handle survives `poll` unchanged. -/
theorem poll_client_preserved (env : PollEnv) (rules : List Rule)
    (account : EmailAccount) (st : AccountState) (c : GmailClient)
    (h : st.client = some c) :
    (poll env rules account st).state.client = some c := by
  unfold poll NewGmailClient at *
  simp only [h]
  rcases fetchAndProcess_state env rules st st.lastSync 0 with ⟨_, hs⟩ | ⟨_, hs⟩ <;>
    rw [hs] <;> exact h

/-- If no session is stored and connect or authenticate fails, the poll
cycle aborts with the state fully unchanged (session left absent). -/
theorem poll_session_fail_state (env : PollEnv) (rules : List Rule)
    (account : EmailAccount) (st : AccountState)
    (hc : st.client = none)
    (hfail : env.connectOk = false ∨ env.authOk = false) :
    (poll env rules account st).state = st ∧
      (poll env rules account st).err ≠ none := by
  unfold poll NewGmailClient
  simp only [hc]
  cases hco : env.connectOk
  · simp
  · rcases hfail with hf | hf
    · rw [hco] at hf; simp at hf
    · simp [hf]

/-- The inner rules loop issues exactly one request per matching rule,
in declaration order, regardless of apply outcomes. -/
theorem processRules_eq (applyLabelOk : Nat → String → Bool) (e : Email) :
    ∀ rules : List Rule,
      processRules applyLabelOk e rules =
        (rules.filter fun r =>
            containsIgnoreCase e.Subject r.SubjectContains).map
          fun r => (e.UID, r.Label)
  | [] => rfl
  | r :: rs => by
    rw [processRules]
    by_cases h : containsIgnoreCase e.Subject r.SubjectContains
    · simp [h, List.filter_cons, processRules_eq applyLabelOk e rs]
    · simp [h, List.filter_cons, processRules_eq applyLabelOk e rs]

/-- The outer email loop concatenates per-message requests in provider
order, regardless of apply outcomes. -/
theorem processEmails_eq (applyLabelOk : Nat → String → Bool)
    (rules : List Rule) :
    ∀ emails : List Email,
      processEmails applyLabelOk rules emails =
        emails.flatMap fun e =>
          (rules.filter fun r =>
              containsIgnoreCase e.Subject r.SubjectContains).map
            fun r => (e.UID, r.Label)
  | [] => rfl
  | e :: es => by
    rw [processEmails, List.flatMap_cons, processRules_eq,
      processEmails_eq applyLabelOk rules es]

/-- The loop outcome determined by the trace is never the
"already polling" error. -/
theorem outcomeOf_ne_already :
    ∀ evs : List LoopEvent,
      outcomeOf evs ≠ PollAccountOutcome.alreadyActiveErr
  | [] => by simp [outcomeOf]
  | LoopEvent.cancel :: _ => by simp [outcomeOf]
  | LoopEvent.stopSig :: _ => by simp [outcomeOf]
  | LoopEvent.tick env :: rest => by
    simpa [outcomeOf] using outcomeOf_ne_already rest

/-- A trace whose outcome is a termination contains a cancellation or a
stop signal. -/
theorem outcomeOf_signal :
    ∀ evs : List LoopEvent,
      outcomeOf evs = PollAccountOutcome.ctxErr ∨
        outcomeOf evs = PollAccountOutcome.nilErr →
      LoopEvent.cancel ∈ evs ∨ LoopEvent.stopSig ∈ evs
  | [], h => by simp [outcomeOf] at h
  | LoopEvent.cancel :: _, _ => Or.inl (List.mem_cons_self _ _)
  | LoopEvent.stopSig :: _, _ => Or.inr (List.mem_cons_self _ _)
  | LoopEvent.tick env :: rest, h => by
    rcases outcomeOf_signal rest (by simpa [outcomeOf] using h) with hm | hm
    · exact Or.inl (List.mem_cons_of_mem _ hm)
    · exact Or.inr (List.mem_cons_of_mem _ hm)

/-- A trace of ticks followed by cancellation has outcome `ctx.Err()`. -/
theorem outcomeOf_ticks_cancel :
    ∀ ticks : List LoopEvent,
      (∀ e ∈ ticks, ∃ env, e = LoopEvent.tick env) →
      outcomeOf (ticks ++ [LoopEvent.cancel]) = PollAccountOutcome.ctxErr
  | [], _ => rfl
  | e :: rest, h => by
    obtain ⟨env, he⟩ := h e (List.mem_cons_self _ _)
    subst he
    simpa [outcomeOf] using
      outcomeOf_ticks_cancel rest fun x hx => h x (List.mem_cons_of_mem _ hx)

/-- The event loop's outcome is decided by the trace alone: tick-cycle
poll failures never terminate it. -/
theorem runLoop_outcome (rules : List Rule) (account : EmailAccount) :
    ∀ (evs : List LoopEvent) (st : AccountState),
      (runLoop rules account st evs).1 = outcomeOf evs
  | [], _ => rfl
  | LoopEvent.cancel :: _, _ => rfl
  | LoopEvent.stopSig :: _, _ => rfl
  | LoopEvent.tick env :: rest, st => by
    simpa [runLoop, outcomeOf] using
      runLoop_outcome rules account rest (poll env rules account st).state

/-- The event loop never touches `isActive`. -/
theorem runLoop_isActive (rules : List Rule) (account : EmailAccount) :
    ∀ (evs : List LoopEvent) (st : AccountState),
      (runLoop rules account st evs).2.1.isActive = st.isActive
  | [], _ => rfl
  | LoopEvent.cancel :: _, _ => rfl
  | LoopEvent.stopSig :: _, _ => rfl
  | LoopEvent.tick env :: rest, st => by
    have h1 := runLoop_isActive rules account rest (poll env rules account st).state
    have h2 := (poll_state_shape env rules account st).1
    simp only [runLoop]
    rw [h1, h2]

/-- Stopping an already-stopped (or never-started) state is a no-op. -/
theorem stopOne_idem (st : AccountState) :
    stopOne (stopOne st).1 = ((stopOne st).1, 0) := by
  unfold stopOne
  cases h : st.isActive <;> simp [h]

/-! The claims. -/

/-- C3: for every poll cycle whose fetch succeeds (even with zero
messages), `lastSync` is set to the clock value read after the fetch,
hence is ≥ the cycle-start time and ≥ its pre-cycle value; and for any
cycle whose clock reads at least the pre-cycle value, `lastSync` is
non-decreasing. -/
theorem c3_lastSync_advances (env : PollEnv) (rules : List Rule)
    (account : EmailAccount) (st : AccountState) (cycleStart : Nat)
    (hsucc : (poll env rules account st).err = none)
    (hclock : cycleStart ≤ env.now) (hpre : st.lastSync ≤ env.now) :
    (poll env rules account st).state.lastSync = env.now ∧
    cycleStart ≤ (poll env rules account st).state.lastSync ∧
    st.lastSync ≤ (poll env rules account st).state.lastSync ∧
    (∀ env' : PollEnv, st.lastSync ≤ env'.now →
      st.lastSync ≤ (poll env' rules account st).state.lastSync) := by
  have h := (poll_lastSync_spec env rules account st).1 hsucc
  refine ⟨h, by rw [h]; exact hclock, by rw [h]; exact hpre, ?_⟩
  intro env' hn
  rcases he : (poll env' rules account st).err with _ | e
  · rw [(poll_lastSync_spec env' rules account st).1 he]
    exact hn
  · rw [(poll_lastSync_spec env' rules account st).2 (by rw [he]; simp)]

/-- Witness for C3 at a concrete successful cycle. -/
theorem c3_lastSync_advances_witness :
    (poll exEnv [exRule] exAcct exSt).state.lastSync = exEnv.now ∧
    3 ≤ (poll exEnv [exRule] exAcct exSt).state.lastSync ∧
    exSt.lastSync ≤ (poll exEnv [exRule] exAcct exSt).state.lastSync ∧
    (∀ env' : PollEnv, exSt.lastSync ≤ env'.now →
      exSt.lastSync ≤ (poll env' [exRule] exAcct exSt).state.lastSync) :=
  c3_lastSync_advances exEnv [exRule] exAcct exSt 3 rfl (by decide) (by decide)

/-- C4: whenever `poll` returns an error, `lastSync` is unchanged; and
when the error comes from the session path (connect or authenticate
failing, with no stored session), the session remains absent. -/
theorem c4_poll_error_frame (env : PollEnv) (rules : List Rule)
    (account : EmailAccount) (st : AccountState) (e : String)
    (herr : (poll env rules account st).err = some e) :
    (poll env rules account st).state.lastSync = st.lastSync ∧
    (st.client = none → env.connectOk = false ∨ env.authOk = false →
      (poll env rules account st).state.client = none) := by
  refine ⟨(poll_lastSync_spec env rules account st).2 (by rw [herr]; simp), ?_⟩
  intro hc hfail
  rw [(poll_session_fail_state env rules account st hc hfail).1]
  exact hc

/-- Witness for C4 at a concrete connect failure. -/
theorem c4_poll_error_frame_witness :
    (poll exEnvNoConn [exRule] exAcct exSt).err =
      some "failed to connect to Gmail" ∧
    (poll exEnvNoConn [exRule] exAcct exSt).state.lastSync = exSt.lastSync ∧
    (poll exEnvNoConn [exRule] exAcct exSt).state.client = none :=
  ⟨rfl,
   (c4_poll_error_frame exEnvNoConn [exRule] exAcct exSt
      "failed to connect to Gmail" rfl).1,
   (c4_poll_error_frame exEnvNoConn [exRule] exAcct exSt
      "failed to connect to Gmail" rfl).2 rfl (Or.inl rfl)⟩

/-- C5: the requests issued are one per matching (message, rule) pair,
messages in provider order, rules in declaration order; a match is
exactly case-insensitive substring containment; apply failures never
change which requests are issued (evaluation is never cut short). -/
theorem c5_rule_evaluation (applyOk applyOk' : Nat → String → Bool)
    (rules : List Rule) (emails : List Email) :
    processEmails applyOk rules emails =
      processEmails applyOk' rules emails ∧
    processEmails applyOk rules emails =
      (emails.flatMap fun e =>
        (rules.filter fun r =>
            containsIgnoreCase e.Subject r.SubjectContains).map
          fun r => (e.UID, r.Label)) ∧
    (∀ s substr : String,
      containsIgnoreCase s substr = true ↔ ToLower substr <:+: ToLower s) := by
  refine ⟨?_, processEmails_eq applyOk rules emails, ?_⟩
  · rw [processEmails_eq applyOk rules emails,
      processEmails_eq applyOk' rules emails]
  · intro s substr
    simp [containsIgnoreCase]

/-- Witness for C5: the spec's scenario — exactly one request, for the
matching message, with label "imp", even when the apply fails. -/
theorem c5_rule_evaluation_witness :
    processEmails (fun _ _ => false) [exRule] [exMail, exMail2] =
      processEmails (fun _ _ => true) [exRule] [exMail, exMail2] ∧
    processEmails (fun _ _ => true) [exRule] [exMail, exMail2] =
      [(42, "imp")] :=
  ⟨(c5_rule_evaluation (fun _ _ => false) (fun _ _ => true)
      [exRule] [exMail, exMail2]).1,
   by decide⟩

/-- C8: a session is constructed only when none is stored (the count of
constructions is nonzero only from an absent session), and a stored
handle is returned unchanged by every poll, with zero constructions. -/
theorem c8_session_reuse (env : PollEnv) (rules : List Rule)
    (account : EmailAccount) (st : AccountState) :
    (∀ c : GmailClient, st.client = some c →
      (poll env rules account st).state.client = some c ∧
      (poll env rules account st).sessionsCreated = 0) ∧
    ((poll env rules account st).sessionsCreated ≠ 0 → st.client = none) := by
  constructor
  · intro c hc
    refine ⟨poll_client_preserved env rules account st c hc, ?_⟩
    rw [poll_sessionsCreated]
    simp [hc]
  · intro hne
    rw [poll_sessionsCreated] at hne
    cases hcl : st.client
    · rfl
    · rw [hcl] at hne
      simp at hne

/-- Witness for C8 at a state already holding a session. -/
theorem c8_session_reuse_witness :
    (poll exEnv [exRule] exAcct exStWithClient).state.client =
      some exClient ∧
    (poll exEnv [exRule] exAcct exStWithClient).sessionsCreated = 0 :=
  (c8_session_reuse exEnv [exRule] exAcct exStWithClient).1 exClient rfl

/-- C9: the empty fragment is a substring of every subject, so a rule
with an empty `SubjectContains` matches every fetched message and its
action request is issued for every message. -/
theorem c9_empty_fragment (s : String) (applyOk : Nat → String → Bool)
    (rules : List Rule) (r : Rule) (emails : List Email)
    (hr : r ∈ rules) (hempty : r.SubjectContains = "") :
    containsIgnoreCase s "" = true ∧
    ∀ e ∈ emails, (e.UID, r.Label) ∈ processEmails applyOk rules emails := by
  have hmatch : ∀ t : String, containsIgnoreCase t "" = true := by
    intro t
    unfold containsIgnoreCase ToLower
    exact decide_eq_true ⟨[], t.data.map Char.toLower, by simp⟩
  refine ⟨hmatch s, ?_⟩
  intro e he
  rw [processEmails_eq, List.mem_flatMap]
  refine ⟨e, he, ?_⟩
  rw [List.mem_map]
  refine ⟨r, ?_, rfl⟩
  rw [List.mem_filter]
  exact ⟨hr, by rw [hempty]; exact hmatch e.Subject⟩

/-- Witness for C9: with an empty-fragment rule configured, both spec
scenario messages get its action. -/
theorem c9_empty_fragment_witness :
    containsIgnoreCase "Lunch plans" "" = true ∧
    ∀ e ∈ [exMail, exMail2], (e.UID, exEmptyRule.Label) ∈
      processEmails (fun _ _ => true) [exRule, exEmptyRule]
        [exMail, exMail2] :=
  c9_empty_fragment "Lunch plans" (fun _ _ => true) [exRule, exEmptyRule]
    exEmptyRule [exMail, exMail2] (by simp) rfl

/-- C2: starting a loop for an already-active account fails immediately
with the "already polling" error, returns the state unchanged and
constructs no session; from an inactive state the first attempt
acquires the flag (and holds it for the loop's lifetime), so a second
attempt at any later point fails the same way — exactly one of two
serialized attempts transitions `isActive` false→true. -/
theorem c2_mutual_exclusion (rules : List Rule) (account : EmailAccount)
    (initEnv initEnv' : PollEnv) (st : AccountState)
    (evs evs' : List LoopEvent) :
    (st.isActive = true →
      pollAccount rules account initEnv st evs =
        (PollAccountOutcome.alreadyActiveErr, st, 0)) ∧
    (st.isActive = false →
      (pollAccount rules account initEnv st evs).1 ≠
        PollAccountOutcome.alreadyActiveErr ∧
      (pollAccount rules account initEnv st evs).2.1.isActive = true ∧
      pollAccount rules account initEnv'
          (pollAccount rules account initEnv st evs).2.1 evs' =
        (PollAccountOutcome.alreadyActiveErr,
          (pollAccount rules account initEnv st evs).2.1, 0)) := by
  constructor
  · intro h
    simp [pollAccount, h]
  · intro h
    have e1 : (pollAccount rules account initEnv st evs).1 = outcomeOf evs := by
      simp only [pollAccount, h, Bool.false_eq_true, if_false]
      exact runLoop_outcome rules account evs _
    have e2 : (pollAccount rules account initEnv st evs).2.1.isActive = true := by
      simp only [pollAccount, h, Bool.false_eq_true, if_false]
      rw [runLoop_isActive,
        (poll_state_shape initEnv rules account { st with isActive := true }).1]
    refine ⟨?_, e2, ?_⟩
    · rw [e1]
      exact outcomeOf_ne_already evs
    · generalize hG : (pollAccount rules account initEnv st evs).2.1 = st' at e2 ⊢
      simp [pollAccount, e2]

/-- Witness for C2: the second of two serialized start attempts fails;
a start on an active state is an unchanged-state immediate error. -/
theorem c2_mutual_exclusion_witness :
    pollAccount [exRule] exAcct exEnv exStActive [] =
      (PollAccountOutcome.alreadyActiveErr, exStActive, 0) ∧
    (pollAccount [exRule] exAcct exEnv exSt [LoopEvent.stopSig]).1 ≠
      PollAccountOutcome.alreadyActiveErr ∧
    (pollAccount [exRule] exAcct exEnv exSt
        [LoopEvent.stopSig]).2.1.isActive = true ∧
    pollAccount [exRule] exAcct exEnvBad
        (pollAccount [exRule] exAcct exEnv exSt [LoopEvent.stopSig]).2.1 [] =
      (PollAccountOutcome.alreadyActiveErr,
        (pollAccount [exRule] exAcct exEnv exSt [LoopEvent.stopSig]).2.1, 0) :=
  ⟨(c2_mutual_exclusion [exRule] exAcct exEnv exEnv exStActive [] []).1 rfl,
   (c2_mutual_exclusion [exRule] exAcct exEnv exEnvBad exSt
      [LoopEvent.stopSig] []).2 rfl⟩

/-- C7: the polling loop's outcome is decided by the signal trace alone
(any failures of the initial poll or of tick polls are logged and the
loop proceeds), and the loop terminates only when a cancellation or a
stop signal occurs in the trace. -/
theorem c7_loop_survives_poll_failures (rules : List Rule)
    (account : EmailAccount) (initEnv initEnv' : PollEnv)
    (st : AccountState) (evs : List LoopEvent)
    (hst : st.isActive = false) :
    (pollAccount rules account initEnv st evs).1 = outcomeOf evs ∧
    (pollAccount rules account initEnv' st evs).1 =
      (pollAccount rules account initEnv st evs).1 ∧
    ((pollAccount rules account initEnv st evs).1 =
        PollAccountOutcome.ctxErr ∨
     (pollAccount rules account initEnv st evs).1 =
        PollAccountOutcome.nilErr →
      LoopEvent.cancel ∈ evs ∨ LoopEvent.stopSig ∈ evs) := by
  have e1 : ∀ env0 : PollEnv,
      (pollAccount rules account env0 st evs).1 = outcomeOf evs := by
    intro env0
    simp only [pollAccount, hst, Bool.false_eq_true, if_false]
    exact runLoop_outcome rules account evs _
  refine ⟨e1 initEnv, by rw [e1 initEnv, e1 initEnv'], ?_⟩
  intro h
  rw [e1 initEnv] at h
  exact outcomeOf_signal evs h

/-- Witness for C7: with a failing initial poll and a failing tick poll
the loop still only ends at the stop signal, with a nil return. -/
theorem c7_loop_survives_poll_failures_witness :
    outcomeOf [LoopEvent.tick exEnvBad, LoopEvent.stopSig] =
      PollAccountOutcome.nilErr ∧
    (pollAccount [exRule] exAcct exEnvBad exSt
        [LoopEvent.tick exEnvBad, LoopEvent.stopSig]).1 =
      outcomeOf [LoopEvent.tick exEnvBad, LoopEvent.stopSig] ∧
    (pollAccount [exRule] exAcct exEnv exSt
        [LoopEvent.tick exEnvBad, LoopEvent.stopSig]).1 =
      (pollAccount [exRule] exAcct exEnvBad exSt
        [LoopEvent.tick exEnvBad, LoopEvent.stopSig]).1 ∧
    ((pollAccount [exRule] exAcct exEnvBad exSt
        [LoopEvent.tick exEnvBad, LoopEvent.stopSig]).1 =
        PollAccountOutcome.ctxErr ∨
     (pollAccount [exRule] exAcct exEnvBad exSt
        [LoopEvent.tick exEnvBad, LoopEvent.stopSig]).1 =
        PollAccountOutcome.nilErr →
      LoopEvent.cancel ∈ [LoopEvent.tick exEnvBad, LoopEvent.stopSig] ∨
      LoopEvent.stopSig ∈ [LoopEvent.tick exEnvBad, LoopEvent.stopSig]) :=
  ⟨rfl, c7_loop_survives_poll_failures [exRule] exAcct exEnvBad exEnv exSt
    [LoopEvent.tick exEnvBad, LoopEvent.stopSig] rfl⟩

/-- C6: one call to `Stop` takes every active account to inactive with
its stop signal asserted and its session closed exactly once (when one
is held); inactive accounts are untouched; and a second `Stop` is a
no-op on the whole map, making no further close calls. -/
theorem c6_stop_idempotent (m : List (String × AccountState)) :
    (∀ p ∈ m, p.2.isActive = true →
      (stopOne p.2).1.isActive = false ∧
      (stopOne p.2).1.stopClosed = true ∧
      (stopOne p.2).2 = (if p.2.client.isSome then 1 else 0)) ∧
    (∀ p ∈ m, p.2.isActive = false → stopOne p.2 = (p.2, 0)) ∧
    Stop (Stop m).1 = ((Stop m).1, 0) := by
  refine ⟨?_, ?_, ?_⟩
  · intro p _ hact
    simp [stopOne, hact]
  · intro p _ hinact
    simp [stopOne, hinact]
  · have h1 : ((Stop m).1.map fun p => (p.1, (stopOne p.2).1)) = (Stop m).1 := by
      show ((m.map fun p => (p.1, (stopOne p.2).1)).map
          fun p => (p.1, (stopOne p.2).1)) = _
      rw [List.map_map]
      apply List.map_congr_left
      intro p _
      show (p.1, (stopOne (stopOne p.2).1).1) = (p.1, (stopOne p.2).1)
      rw [stopOne_idem]
    have h2 : ((Stop m).1.map fun p => (stopOne p.2).2).sum = 0 := by
      apply List.sum_eq_zero
      intro x hx
      rw [List.mem_map] at hx
      obtain ⟨p, hp, hpx⟩ := hx
      show x = 0
      rw [show (Stop m).1 = m.map fun q => (q.1, (stopOne q.2).1) from rfl,
        List.mem_map] at hp
      obtain ⟨q, _, hq⟩ := hp
      subst hq
      rw [show (stopOne ((q.1, (stopOne q.2).1)).2).2 =
          (stopOne (stopOne q.2).1).2 from rfl, stopOne_idem] at hpx
      exact hpx.symm
    show ((Stop m).1.map fun p => (p.1, (stopOne p.2).1),
      ((Stop m).1.map fun p => (stopOne p.2).2).sum) = ((Stop m).1, 0)
    rw [h1, h2]

/-- Witness for C6 on a concrete two-entry map (one active with a
session, one idle). -/
theorem c6_stop_idempotent_witness :
    ((stopOne exStActiveClient).1.isActive = false ∧
     (stopOne exStActiveClient).1.stopClosed = true ∧
     (stopOne exStActiveClient).2 = 1) ∧
    stopOne exSt = (exSt, 0) ∧
    Stop (Stop exMap).1 = ((Stop exMap).1, 0) := by
  obtain ⟨h1, h2, h3⟩ := c6_stop_idempotent exMap
  refine ⟨?_, h2 ("b", exSt) (by simp [exMap]) rfl, h3⟩
  have := h1 ("a", exStActiveClient) (by simp [exMap]) rfl
  simpa [exStActiveClient] using this

/-- C10: `Stop` never modifies any `lastSync` (keys and `lastSync`
values of the whole map are preserved), never replaces a stored
session handle, and leaves inactive accounts entirely unchanged. -/
theorem c10_stop_frame (m : List (String × AccountState)) :
    ((Stop m).1.map fun p => (p.1, p.2.lastSync)) =
      (m.map fun p => (p.1, p.2.lastSync)) ∧
    (∀ st : AccountState, (stopOne st).1.lastSync = st.lastSync) ∧
    (∀ st : AccountState, (stopOne st).1.client = st.client) ∧
    (∀ st : AccountState, st.isActive = false → stopOne st = (st, 0)) := by
  have hls : ∀ st : AccountState, (stopOne st).1.lastSync = st.lastSync := by
    intro st
    unfold stopOne
    cases h : st.isActive <;> simp
  refine ⟨?_, hls, ?_, ?_⟩
  · show ((m.map fun p => (p.1, (stopOne p.2).1)).map
        fun p => (p.1, p.2.lastSync)) = _
    rw [List.map_map]
    apply List.map_congr_left
    intro p _
    show (p.1, (stopOne p.2).1.lastSync) = (p.1, p.2.lastSync)
    rw [hls]
  · intro st
    unfold stopOne
    cases h : st.isActive <;> simp
  · intro st hinact
    simp [stopOne, hinact]

/-- Witness for C10 on the concrete map and a concrete idle state. -/
theorem c10_stop_frame_witness :
    ((Stop exMap).1.map fun p => (p.1, p.2.lastSync)) =
      (exMap.map fun p => (p.1, p.2.lastSync)) ∧
    (stopOne exSt).1.lastSync = exSt.lastSync ∧
    (stopOne exStActiveClient).1.client = exStActiveClient.client ∧
    stopOne exSt = (exSt, 0) :=
  ⟨(c10_stop_frame exMap).1, (c10_stop_frame exMap).2.1 exSt,
   (c10_stop_frame exMap).2.2.1 exStActiveClient,
   (c10_stop_frame exMap).2.2.2 exSt rfl⟩

/-- C1 is false on the code: a loop whose run ends only because the
cancellation signal fired returns `ctx.Err()`, a non-nil error, and
`Start`'s aggregation returns it — at this concrete input `Start` does
emit a failure outcome attributable to cancellation alone. -/
theorem c1_cancellation_counterexample :
    (pollAccount [exRule] exAcct exEnv exSt [LoopEvent.cancel]).1 =
      PollAccountOutcome.ctxErr ∧
    loopErrored PollAccountOutcome.ctxErr = true ∧
    Start [exAcct]
      (fun _ => (pollAccount [exRule] exAcct exEnv exSt
        [LoopEvent.cancel]).1) = true :=
  ⟨rfl, rfl, rfl⟩

/-- C1 amended: when the cancellation signal ends a run (any number of
ticks, then cancel), the loop returns `ctx.Err()` — a non-nil error —
and `Start` over enabled accounts whose loops all end this way returns
an error; only stop-signal termination is a nil, non-error outcome. -/
theorem c1_cancellation_is_error (rules : List Rule)
    (account : EmailAccount) (initEnv : PollEnv) (st : AccountState)
    (ticks : List LoopEvent) (accs : List EmailAccount)
    (runOf : EmailAccount → PollAccountOutcome)
    (hst : st.isActive = false)
    (hticks : ∀ e ∈ ticks, ∃ env, e = LoopEvent.tick env) :
    (pollAccount rules account initEnv st
        (ticks ++ [LoopEvent.cancel])).1 = PollAccountOutcome.ctxErr ∧
    ((∀ a ∈ accs.filter fun x => x.Enabled,
        runOf a = PollAccountOutcome.ctxErr) →
      (accs.filter fun x => x.Enabled) ≠ [] → Start accs runOf = true) ∧
    ((∀ a ∈ accs.filter fun x => x.Enabled,
        runOf a = PollAccountOutcome.nilErr) → Start accs runOf = false) := by
  refine ⟨?_, ?_, ?_⟩
  · have e1 : (pollAccount rules account initEnv st
        (ticks ++ [LoopEvent.cancel])).1 =
        outcomeOf (ticks ++ [LoopEvent.cancel]) := by
      simp only [pollAccount, hst, Bool.false_eq_true, if_false]
      exact runLoop_outcome rules account _ _
    rw [e1]
    exact outcomeOf_ticks_cancel ticks hticks
  · intro hall hne
    unfold Start
    rw [List.any_eq_true]
    obtain ⟨a, ha⟩ := List.exists_mem_of_ne_nil _ hne
    exact ⟨runOf a, List.mem_map_of_mem runOf ha,
      by rw [hall a ha]; rfl⟩
  · intro hall
    unfold Start
    rw [List.any_eq_false]
    intro x hx
    rw [List.mem_map] at hx
    obtain ⟨a, ha, hax⟩ := hx
    rw [← hax, hall a ha]
    simp [loopErrored]

/-- Witness for the amended C1: one tick (whose poll fails), then the
cancellation — the loop returns the error outcome and `Start` with one
enabled account returns an error. -/
theorem c1_cancellation_is_error_witness :
    (pollAccount [exRule] exAcct exEnvBad exSt
        ([LoopEvent.tick exEnvBad] ++ [LoopEvent.cancel])).1 =
      PollAccountOutcome.ctxErr ∧
    Start [exAcct] (fun _ => PollAccountOutcome.ctxErr) = true := by
  have h := c1_cancellation_is_error [exRule] exAcct exEnvBad exSt
    [LoopEvent.tick exEnvBad] [exAcct] (fun _ => PollAccountOutcome.ctxErr)
    rfl (by
      intro e he
      rw [List.mem_singleton] at he
      exact ⟨exEnvBad, he⟩)
  exact ⟨h.1, h.2.1 (fun a _ => rfl) (by simp [exAcct])⟩

end GoTsk
